import Mathlib

/-!
Verification development for the planning-poker-liveblocks repository.

The definitions below are a shallow embedding of the repository's
reconciliation core: the `useSessionStorage` hook (durable key-value store
with JSON codec), the presence-reconciliation effects of `Room.tsx`, the
shared estimate map operations, the confetti (consensus celebration)
effect and the avatar visibility logic of `UserAvatarDisplay.tsx`.

JavaScript values stored through the hook are modelled by `JsValue`
(JSON numbers restricted to integers; floating-point numbers are outside
the model).  The browser environment (server vs client, the storage
medium, console logging) is modelled explicitly by `Env` and `LogEntry`.
-/

/-- Model of a JavaScript value as handled by the session-storage codec.
Numbers are restricted to integers. -/
inductive JsValue where
  | undef : JsValue
  | null : JsValue
  | bool (b : Bool) : JsValue
  | num (n : Int) : JsValue
  | str (s : String) : JsValue
  | arr (xs : List JsValue) : JsValue
  | obj (fields : List (String × JsValue)) : JsValue

/-- One console log entry (`console.warn` / `console.error`). -/
inductive LogEntry where
  | warn (msg : String) : LogEntry
  | error (msg : String) : LogEntry
deriving DecidableEq

/-- A JavaScript exception escaping to the caller. -/
inductive JsError where
  | windowUndefined : JsError
  | quotaExceeded : JsError
deriving DecidableEq

/-- Hexadecimal digit used by the string escaper (lower case, as in JS). -/
def hexDigitChar (n : Nat) : Char :=
  if n < 10 then Char.ofNat (48 + n) else Char.ofNat (87 + n)

/-- `JSON.stringify` escaping of a single character inside a string literal. -/
def escapeChar (c : Char) : String :=
  if c = '"' then "\\\""
  else if c = '\\' then "\\\\"
  else if c = '\x08' then "\\b"
  else if c = '\x0c' then "\\f"
  else if c = '\n' then "\\n"
  else if c = '\r' then "\\r"
  else if c = '\t' then "\\t"
  else if c.toNat < 32 then
    "\\u00" ++ String.singleton (hexDigitChar (c.toNat / 16)) ++
      String.singleton (hexDigitChar (c.toNat % 16))
  else String.singleton c

/-- `JSON.stringify` rendering of a string literal, quotes included. -/
def encodeString (s : String) : String :=
  "\"" ++ String.join (s.toList.map escapeChar) ++ "\""

mutual

/-- `JSON.stringify`: `none` when the value is `undefined` (JS returns the
value `undefined`, not a string, in that case). -/
def jsonStringify : JsValue → Option String
  | .undef => none
  | .null => some "null"
  | .bool true => some "true"
  | .bool false => some "false"
  | .num n => some (toString n)
  | .str s => some (encodeString s)
  | .arr xs => some ("[" ++ stringifyElems xs ++ "]")
  | .obj fs => some ("\x7b" ++ String.intercalate "," (stringifyFields fs) ++ "\x7d")

/-- Array elements, comma separated; `undefined` elements render as `null`. -/
def stringifyElems : List JsValue → String
  | [] => ""
  | [x] => (jsonStringify x).getD "null"
  | x :: y :: xs => (jsonStringify x).getD "null" ++ "," ++ stringifyElems (y :: xs)

/-- Object members; fields whose value is `undefined` are skipped. -/
def stringifyFields : List (String × JsValue) → List String
  | [] => []
  | (k, v) :: fs =>
    match jsonStringify v with
    | none => stringifyFields fs
    | some s => (encodeString k ++ ":" ++ s) :: stringifyFields fs

end

/-- The text actually stored by `setItem(key, serializer(v))`: when
`JSON.stringify` yields the value `undefined`, `setItem` coerces it to the
string `"undefined"`. -/
def storedText (v : JsValue) : String :=
  (jsonStringify v).getD "undefined"

/-- Skip JSON whitespace. -/
def skipWs : List Char → List Char
  | [] => []
  | c :: cs => if c = ' ' ∨ c = '\t' ∨ c = '\n' ∨ c = '\r' then skipWs cs else c :: cs

/-- Value of one hexadecimal digit. -/
def hexVal (c : Char) : Option Nat :=
  if '0' ≤ c ∧ c ≤ '9' then some (c.toNat - 48)
  else if 'a' ≤ c ∧ c ≤ 'f' then some (c.toNat - 87)
  else if 'A' ≤ c ∧ c ≤ 'F' then some (c.toNat - 55)
  else none

/-- Parse exactly four hexadecimal digits (the `\uXXXX` escape). -/
def parseHex4 : List Char → Option (Nat × List Char)
  | a :: b :: c :: d :: rest => do
    let va ← hexVal a
    let vb ← hexVal b
    let vc ← hexVal c
    let vd ← hexVal d
    some (((va * 16 + vb) * 16 + vc) * 16 + vd, rest)
  | _ => none

/-- Parse the body of a JSON string literal after the opening quote. -/
def parseStrBody : Nat → List Char → List Char → Option (String × List Char)
  | 0, _, _ => none
  | _ + 1, [], _ => none
  | fuel + 1, c :: cs, acc =>
    if c = '"' then some ((acc.reverse).asString, cs)
    else if c = '\\' then
      match cs with
      | [] => none
      | e :: cs2 =>
        if e = '"' then parseStrBody fuel cs2 ('"' :: acc)
        else if e = '\\' then parseStrBody fuel cs2 ('\\' :: acc)
        else if e = '/' then parseStrBody fuel cs2 ('/' :: acc)
        else if e = 'b' then parseStrBody fuel cs2 ('\x08' :: acc)
        else if e = 'f' then parseStrBody fuel cs2 ('\x0c' :: acc)
        else if e = 'n' then parseStrBody fuel cs2 ('\n' :: acc)
        else if e = 'r' then parseStrBody fuel cs2 ('\r' :: acc)
        else if e = 't' then parseStrBody fuel cs2 ('\t' :: acc)
        else if e = 'u' then
          match parseHex4 cs2 with
          | some (n, cs3) => parseStrBody fuel cs3 (Char.ofNat n :: acc)
          | none => none
        else none
    else parseStrBody fuel cs (c :: acc)

/-- Take a maximal run of decimal digits. -/
def takeDigits : List Char → List Char × List Char
  | [] => ([], [])
  | c :: cs =>
    if '0' ≤ c ∧ c ≤ '9' then
      let (ds, rest) := takeDigits cs
      (c :: ds, rest)
    else ([], c :: cs)

/-- Digits to a natural number. -/
def digitsToNat (ds : List Char) : Nat :=
  ds.foldl (fun acc c => acc * 10 + (c.toNat - 48)) 0

/-- Parse a JSON number.  Only integer literals are in the model: a
fractional part or an exponent makes the parse fail (such values are not
representable in `JsValue`). -/
def parseNumberTok (cs : List Char) : Option (JsValue × List Char) :=
  let (neg, cs1) := match cs with
    | '-' :: rest => (true, rest)
    | _ => (false, cs)
  match takeDigits cs1 with
  | ([], _) => none
  | (ds, rest) =>
    if ds.length > 1 ∧ ds.headD '0' = '0' then none
    else
      match rest with
      | '.' :: _ => none
      | 'e' :: _ => none
      | 'E' :: _ => none
      | _ =>
        let n : Int := Int.ofNat (digitsToNat ds)
        some (.num (if neg then -n else n), rest)

mutual

/-- Fueled recursive-descent JSON value parse. -/
def parseVal : Nat → List Char → Option (JsValue × List Char)
  | 0, _ => none
  | fuel + 1, cs =>
    match skipWs cs with
    | 'n' :: 'u' :: 'l' :: 'l' :: rest => some (.null, rest)
    | 't' :: 'r' :: 'u' :: 'e' :: rest => some (.bool true, rest)
    | 'f' :: 'a' :: 'l' :: 's' :: 'e' :: rest => some (.bool false, rest)
    | '"' :: rest =>
      match parseStrBody (rest.length + 1) rest [] with
      | some (s, rest2) => some (.str s, rest2)
      | none => none
    | '[' :: rest =>
      (match skipWs rest with
        | ']' :: rest2 => some (.arr [], rest2)
        | other =>
          match parseElems fuel other with
          | some (vs, rest2) => some (.arr vs, rest2)
          | none => none)
    | '\x7b' :: rest =>
      (match skipWs rest with
        | '\x7d' :: rest2 => some (.obj [], rest2)
        | other =>
          match parseMembers fuel other with
          | some (fs, rest2) => some (.obj fs, rest2)
          | none => none)
    | other => parseNumberTok other

/-- Non-empty, comma-separated array elements, up to the closing bracket. -/
def parseElems : Nat → List Char → Option (List JsValue × List Char)
  | 0, _ => none
  | fuel + 1, cs => do
    let (v, rest) ← parseVal fuel cs
    match skipWs rest with
    | ',' :: rest2 =>
      match parseElems fuel rest2 with
      | some (vs, rest3) => some (v :: vs, rest3)
      | none => none
    | ']' :: rest2 => some ([v], rest2)
    | _ => none

/-- Non-empty, comma-separated object members, up to the closing brace. -/
def parseMembers : Nat → List Char → Option (List (String × JsValue) × List Char)
  | 0, _ => none
  | fuel + 1, cs =>
    match skipWs cs with
    | '"' :: rest =>
      (match parseStrBody (rest.length + 1) rest [] with
        | none => none
        | some (k, rest2) =>
          match skipWs rest2 with
          | ':' :: rest3 => do
            let (v, rest4) ← parseVal fuel rest3
            match skipWs rest4 with
            | ',' :: rest5 =>
              match parseMembers fuel rest5 with
              | some (fs, rest6) => some ((k, v) :: fs, rest6)
              | none => none
            | '\x7d' :: rest5 => some ([(k, v)], rest5)
            | _ => none
          | _ => none)
    | _ => none

end

/-- `JSON.parse` on the modelled sublanguage: `none` models a thrown
`SyntaxError`. -/
def jsonParse (s : String) : Option JsValue :=
  match parseVal (2 * s.length + 2) s.toList with
  | some (v, rest) => if skipWs rest = [] then some v else none
  | none => none

/-- The execution environment of the hook: whether we are outside a
browser (`typeof window === "undefined"`), the contents of
`window.sessionStorage`, and whether the medium currently rejects writes
(quota exceeded / storage disabled). -/
structure Env where
  isServer : Bool
  storage : List (String × String)
  setItemFails : Bool
deriving DecidableEq

/-- `sessionStorage.getItem` (client side). -/
def storageGet (st : List (String × String)) (key : String) : Option String :=
  (st.find? (fun kv => kv.1 == key)).map (fun kv => kv.2)

/-- `sessionStorage.setItem` (client side, successful write). -/
def storageSet (st : List (String × String)) (key val : String) : List (String × String) :=
  (key, val) :: st.filter (fun kv => !(kv.1 == key))

/-- `sessionStorage.removeItem` (client side). -/
def storageRemove (st : List (String × String)) (key : String) : List (String × String) :=
  st.filter (fun kv => !(kv.1 == key))

/-- The default deserializer of `useSessionStorage`: the literal text
`"undefined"` deserializes to the `undefined` value; otherwise
`JSON.parse`, returning the initial value (and logging an error) when
parsing fails.  Result: the produced value and the console output. -/
def deserializer (initialValue : JsValue) (value : String) : JsValue × List LogEntry :=
  if value = "undefined" then (.undef, [])
  else
    match jsonParse value with
    | none => (initialValue, [.error "Error parsing JSON:"])
    | some parsed => (parsed, [])

/-- `readValue`: early return of the initial value on the server; on the
client, a missing or empty raw text yields the initial value, anything
else goes through the deserializer.  (The surrounding try/catch of the
source can only catch storage-access failures, which do not occur for
reads in this model.) -/
def readValue (env : Env) (key : String) (initialValue : JsValue) : JsValue × List LogEntry :=
  if env.isServer then (initialValue, [])
  else
    match storageGet env.storage key with
    | none => (initialValue, [])
    | some raw => if raw = "" then (initialValue, []) else deserializer initialValue raw

/-- `console.warn` text emitted when writing outside a client environment. -/
def warnSetServerMsg (key : String) : String :=
  "Tried setting sessionStorage key “" ++ key ++ "” even though environment is not a client"

/-- `console.warn` text emitted when the write is caught by the catch block. -/
def warnSetErrorMsg (key : String) : String :=
  "Error setting sessionStorage key “" ++ key ++ "”:"

/-- `console.warn` text emitted when removing outside a client environment. -/
def warnRemoveServerMsg (key : String) : String :=
  "Tried removing sessionStorage key “" ++ key ++ "” even though environment is not a client"

/-- Result of `setValue`: the environment after the call, the value passed
to `setStoredValue` when that statement was reached (`none` when the try
block aborted before it), and the console output.  `setValue` itself never
throws: everything that can throw sits inside its try/catch. -/
def setValue (env : Env) (key : String) (value : JsValue) :
    Env × Option JsValue × List LogEntry :=
  let serverWarn : List LogEntry := if env.isServer then [.warn (warnSetServerMsg key)] else []
  if env.isServer then
    -- `window.sessionStorage.setItem` throws (window is undefined); caught.
    (env, none, serverWarn ++ [.warn (warnSetErrorMsg key)])
  else if env.setItemFails then
    -- the medium rejects the write; the exception is caught, and the
    -- statements after `setItem` (`setStoredValue`, the event dispatch)
    -- are skipped.
    (env, none, serverWarn ++ [.warn (warnSetErrorMsg key)])
  else
    ({ env with storage := storageSet env.storage key (storedText value) },
      some value, serverWarn)

/-- `removeValue`: after the server warning there is no early return and
no try/catch, so on the server the `window.sessionStorage.removeItem`
access throws and the exception escapes to the caller (carrying the
console output emitted before the throw).  On the client the key is
removed and the stored value is reset to the initial value. -/
def removeValue (env : Env) (key : String) (initialValue : JsValue) :
    Except (JsError × List LogEntry) (Env × JsValue × List LogEntry) :=
  let serverWarn : List LogEntry := if env.isServer then [.warn (warnRemoveServerMsg key)] else []
  if env.isServer then .error (.windowUndefined, serverWarn)
  else .ok ({ env with storage := storageRemove env.storage key }, initialValue, serverWarn)

/-- JavaScript truthiness of an optional string (`undefined` and `""` are
falsy). -/
def jsTruthy : Option String → Bool
  | none => false
  | some s => !(s == "")

/-- The persisted identity stored under the `"userData"` key:
`\x7b username?: string; id?: string \x7d`. -/
structure UserInfo where
  username : Option String
  id : Option String
deriving DecidableEq

/-- The network presence record `\x7b id, username, isSpectator \x7d`.
The id and username are optional strings so that the JS `undefined`
cases visible in the source (`!!p.id`, `userId ?? ...`) are expressible. -/
structure Presence where
  id : Option String
  username : Option String
  isSpectator : Bool
deriving DecidableEq

/-- A partial presence update, as passed to `updatePresence`. -/
inductive PresencePatch where
  | setUsername (u : Option String) : PresencePatch
  | setId (i : Option String) : PresencePatch
deriving DecidableEq

/-- `updatePresence` merges the patch into the presence record. -/
def applyPatch (p : Presence) : PresencePatch → Presence
  | .setUsername u => { p with username := u }
  | .setId i => { p with id := i }

/-- What one reconciliation effect does: at most one `setUserInfo` call
(the complete replacement object it passes) and at most one
`updatePresence` call (the patch it pushes). -/
structure EffectOut where
  setUserInfo : Option UserInfo
  push : Option PresencePatch
deriving DecidableEq

/-- The username-convergence effect of `Room.tsx`:
if the persisted and network usernames differ, a truthy persisted
username is pushed to the presence, otherwise the network username is
adopted into the persisted identity. -/
def usernameEffect (userInfo : UserInfo) (presence : Presence) : EffectOut :=
  if !(userInfo.username == presence.username) then
    if jsTruthy userInfo.username then
      ⟨none, some (.setUsername userInfo.username)⟩
    else
      ⟨some { userInfo with username := presence.username }, none⟩
  else ⟨none, none⟩

/-- The id-convergence effect of `Room.tsx`:
a falsy persisted id adopts the network id; a truthy persisted id that
differs from the network id is pushed to the presence. -/
def idEffect (userInfo : UserInfo) (presence : Presence) : EffectOut :=
  if !(jsTruthy userInfo.id) then
    ⟨some { userInfo with id := presence.id }, none⟩
  else if !(userInfo.id == presence.id) then
    ⟨none, some (.setId userInfo.id)⟩
  else ⟨none, none⟩

/-- Apply a single effect's output to the pair of records, also reporting
whether a presence push occurred. -/
def runEffect (userInfo : UserInfo) (presence : Presence) (e : EffectOut) :
    UserInfo × Presence × Bool :=
  (e.setUserInfo.getD userInfo,
    match e.push with
    | some patch => applyPatch presence patch
    | none => presence,
    e.push.isSome)

/-- One reconciliation step of the username effect alone. -/
def usernameStep (userInfo : UserInfo) (presence : Presence) : UserInfo × Presence × Bool :=
  runEffect userInfo presence (usernameEffect userInfo presence)

/-- One reconciliation step of the id effect alone. -/
def idStep (userInfo : UserInfo) (presence : Presence) : UserInfo × Presence × Bool :=
  runEffect userInfo presence (idEffect userInfo presence)

/-- One render commit: both effects run against the same snapshot
`(userInfo, presence)`; each `setUserInfo` passes a complete object built
from that snapshot, so when both effects call it, the later (id effect's)
object wins wholesale, while presence patches merge.  Returns the state
for the next render and whether any presence push occurred. -/
def reconcileRound (userInfo : UserInfo) (presence : Presence) :
    UserInfo × Presence × Bool :=
  let e1 := usernameEffect userInfo presence
  let e2 := idEffect userInfo presence
  let userInfo2 := e2.setUserInfo.getD (e1.setUserInfo.getD userInfo)
  let presence1 := match e1.push with
    | some patch => applyPatch presence patch
    | none => presence
  let presence2 := match e2.push with
    | some patch => applyPatch presence1 patch
    | none => presence1
  (userInfo2, presence2, e1.push.isSome || e2.push.isSome)

/-- Iterate reconciliation rounds, accumulating whether any round pushed
the presence. -/
def reconcileSteps : Nat → UserInfo × Presence × Bool → UserInfo × Presence × Bool
  | 0, st => st
  | n + 1, (ui, p, pushed) =>
    let (ui2, p2, pushed2) := reconcileRound ui p
    reconcileSteps n (ui2, p2, pushed || pushed2)

/-- The shared estimate map `participantId → estimate label`. -/
abbrev EstimateMap := List (String × String)

/-- `LiveMap.get` with a string key. -/
def mapGet (m : EstimateMap) (key : String) : Option String :=
  (m.find? (fun kv => kv.1 == key)).map (fun kv => kv.2)

/-- `LiveMap.get` with a possibly-undefined key (`get(undefined)` finds
nothing, since the map's keys are strings). -/
def mapGetOpt (m : EstimateMap) (key : Option String) : Option String :=
  match key with
  | none => none
  | some k => mapGet m k

/-- The fixed label set rendered as the room's buttons. -/
def estimationValues : List String := ["/", "0", "1", "2", "3", "5", "8", "13"]

/-- The `updateEstimate` mutation: `estimates.set(userId, estimate)` —
an unconditional insert/overwrite, with no label validation. -/
def updateEstimate (m : EstimateMap) (userId estimate : String) : EstimateMap :=
  (userId, estimate) :: m.filter (fun kv => !(kv.1 == userId))

/-- The `clearEstimate` mutation: `estimates.delete(userId)`. -/
def clearEstimate (m : EstimateMap) (userId : String) : EstimateMap :=
  m.filter (fun kv => !(kv.1 == userId))

/-- The `clearEstimates` mutation: the map is replaced by a fresh empty
`LiveMap`. -/
def clearEstimates (_ : EstimateMap) : EstimateMap := []

/-- The shared storage root `data`. -/
structure SharedData where
  estimates : EstimateMap
  estimatesRevealed : Bool
deriving DecidableEq

/-- `Room.tsx`'s self-estimate selector:
`storage.data.estimates.get(userInfo.id!)` — read directly from the map,
not gated on the reveal flag. -/
def selfEstimate (storage : SharedData) (userId : Option String) : Option String :=
  mapGetOpt storage.estimates userId

/-- The dependency triple of the confetti effect in
`UserAvatarDisplay.tsx`: `[estimatesRevealed, estimates, presence.id]`. -/
structure ConfettiDeps where
  estimatesRevealed : Bool
  estimates : EstimateMap
  selfId : Option String
deriving DecidableEq

/-- The guard inside the effect body:
`[...estimates.values()].every((e) => e === estimates.get(presence.id))` —
every entry of the map (spectators included) equals the entry stored under
the self id; vacuously true for the empty map. -/
def allMatchSelf (m : EstimateMap) (selfId : Option String) : Bool :=
  m.all (fun kv => some kv.2 == mapGetOpt m selfId)

/-- Whether the effect body runs and fires the confetti on a re-render:
the effect re-runs exactly when its dependency triple changed, and its
body fires when the new state is revealed and all entries match the self
entry. -/
def confettiFires (prev cur : ConfettiDeps) : Bool :=
  decide (prev ≠ cur) && (cur.estimatesRevealed && allMatchSelf cur.estimates cur.selfId)

/-- What an `Avatar` renders in place of the face/label. -/
inductive AvatarView where
  | revealedLabel (label : String) : AvatarView
  | hiddenFace (hasEstimateDot : Bool) : AvatarView
deriving DecidableEq

/-- The `Avatar` rendering logic of `UserAvatarDisplay.tsx`: when
revealed and not a spectator, the raw label (or `"?"`) is shown;
otherwise the avatar image is shown, with the red dot rendered under the
JS-truthiness condition `estimates.get(userId) && ...` — present AND
non-empty, so an empty-string entry shows no dot. -/
def avatarView (estimatesRevealed : Bool) (isSpectator : Bool)
    (estimates : EstimateMap) (userId : String) : AvatarView :=
  if estimatesRevealed && !isSpectator then
    .revealedLabel ((mapGet estimates userId).getD "?")
  else
    .hiddenFace (jsTruthy (mapGet estimates userId))

/-- The reduce step of the `useOthers` selector: keep the incoming
presence only when its id is not already in the accumulator and is not
the self id; kept entries are appended at the end. -/
def dedupeOthers (selfId : Option String) : List Presence → List Presence → List Presence
  | acc, [] => acc
  | acc, other :: rest =>
    if acc.any (fun o => other.id == o.id) || other.id == selfId then
      dedupeOthers selfId acc rest
    else
      dedupeOthers selfId (acc ++ [other]) rest

/-- The full `useOthers` selector of `UserAvatarDisplay.tsx`: dedupe by
id, drop the self id, then keep only presences with truthy username and
id. -/
def othersSelector (selfId : Option String) (others : List Presence) : List Presence :=
  (dedupeOthers selfId [] others).filter (fun p => jsTruthy p.username && jsTruthy p.id)

/-- Truthiness of an optional string characterised. -/
theorem jsTruthy_iff (o : Option String) : jsTruthy o = true ↔ ∃ s, o = some s ∧ s ≠ "" := by
  cases o with
  | none => simp [jsTruthy]
  | some s => simp [jsTruthy]

/-- Looking up a key other than the removed one is unaffected by the
key-filtering step. -/
theorem mapGet_filter_ne (m : EstimateMap) (userId other : String) (h : other ≠ userId) :
    mapGet (m.filter (fun kv => !(kv.1 == userId))) other = mapGet m other := by
  induction m with
  | nil => rfl
  | cons kv rest ih =>
    by_cases hk : kv.1 = userId
    · have h1 : (kv.1 == userId) = true := beq_iff_eq.mpr hk
      have h2 : (kv.1 == other) = false := by
        simp [hk]
        exact fun he => h he.symm
      simp [mapGet, List.filter, h1, List.find?, h2] at *
      exact ih
    · have h1 : (kv.1 == userId) = false := by simp [hk]
      by_cases ho : kv.1 = other
      · have h2 : (kv.1 == other) = true := beq_iff_eq.mpr ho
        simp [mapGet, List.filter, h1, List.find?, h2]
      · have h2 : (kv.1 == other) = false := by simp [ho]
        simp [mapGet, List.filter, h1, List.find?, h2] at *
        exact ih

/-- C5.  In a server context (`window` undefined), `readValue` returns the
initial value without logging, `setValue` emits two warnings and performs
no update without throwing, but `removeValue` emits its warning and then
throws: the `window.sessionStorage.removeItem` access is behind neither an
early return nor a try/catch, contradicting the claim (and the source's
own "keeps working" comment) that no store operation raises an error
outside a browser context. -/
theorem server_context_store_ops :
    readValue ⟨true, [], false⟩ "userData" .null = (.null, []) ∧
    setValue ⟨true, [], false⟩ "userData" (.str "x") =
      (⟨true, [], false⟩, none,
        [.warn (warnSetServerMsg "userData"), .warn (warnSetErrorMsg "userData")]) ∧
    removeValue ⟨true, [], false⟩ "userData" .null =
      .error (.windowUndefined, [.warn (warnRemoveServerMsg "userData")]) :=
  ⟨rfl, rfl, rfl⟩

/-- C8 counterexample.  When the storage medium rejects the write (client
context, quota/disabled), `setValue` only logs a warning: the value passed
to `setStoredValue` is `none` — the statement is never reached, so the
in-memory reactive value is NOT updated to the new value, refuting the
claim that it is. -/
theorem write_failure_skips_memory_update :
    (setValue ⟨false, [], true⟩ "userData" (.str "5")).2.1 = none ∧
    (setValue ⟨false, [], true⟩ "userData" (.str "5")).1 = ⟨false, [], true⟩ ∧
    (setValue ⟨false, [], true⟩ "userData" (.str "5")).2.2 =
      [.warn (warnSetErrorMsg "userData")] :=
  ⟨rfl, rfl, rfl⟩

/-- C8 amended.  When the storage medium rejects a write, `setValue` logs
a warning and abandons the whole update: the stored environment is
unchanged and the in-memory reactive value is not updated (the previous
in-memory value remains the tab's source of truth); nothing is thrown. -/
theorem write_failure_behaviour (env : Env) (key : String) (v : JsValue)
    (hclient : env.isServer = false) (hfail : env.setItemFails = true) :
    setValue env key v = (env, none, [.warn (warnSetErrorMsg key)]) := by
  simp [setValue, hclient, hfail]

/-- Witness for `write_failure_behaviour` at a concrete rejected write. -/
theorem write_failure_behaviour_witness :
    setValue ⟨false, [("userData", "null")], true⟩ "userData" (.str "5") =
      (⟨false, [("userData", "null")], true⟩, none, [.warn (warnSetErrorMsg "userData")]) :=
  write_failure_behaviour _ _ _ rfl rfl

/-- C4 counterexample.  `"99"` is outside the fixed legal label set, yet
`updateEstimate` happily inserts it: the mutation performs no label
validation, refuting the claim that such calls are rejected before any
mutation of the map. -/
theorem update_estimate_accepts_illegal_label :
    ¬ ("99" ∈ estimationValues) ∧
    mapGet (updateEstimate [] "P1" "99") "P1" = some "99" := by
  constructor
  · decide
  · rfl

/-- C4 amended.  `updateEstimate` sets/overwrites the map entry for the
given participant id for EVERY label, legal or not, and leaves every
other participant's entry unchanged; the fixed legal set only constrains
which labels the room's buttons offer. -/
theorem update_estimate_sets_entry (m : EstimateMap) (userId estimate other : String) :
    mapGet (updateEstimate m userId estimate) userId = some estimate ∧
    (other ≠ userId → mapGet (updateEstimate m userId estimate) other = mapGet m other) := by
  constructor
  · simp [updateEstimate, mapGet, List.find?]
  · intro h
    have h2 : (userId == other) = false := by
      simp
      exact fun he => h he.symm
    simp only [updateEstimate, mapGet, List.find?, h2]
    exact mapGet_filter_ne m userId other h

/-- Witness for `update_estimate_sets_entry` at a concrete map. -/
theorem update_estimate_sets_entry_witness :
    mapGet (updateEstimate [("P2", "8")] "P1" "5") "P1" = some "5" ∧
    mapGet (updateEstimate [("P2", "8")] "P1" "5") "P2" = mapGet [("P2", "8")] "P2" :=
  ⟨(update_estimate_sets_entry [("P2", "8")] "P1" "5" "P2").1,
    (update_estimate_sets_entry [("P2", "8")] "P1" "5" "P2").2 (by decide)⟩

/-- C6.  For every key and every value that round-trips through the
default JSON codec (`deserialize (serialize v) = v`), a successful client
`write(key, value)` followed by `read(key)` yields exactly the written
value. -/
theorem write_then_read_roundtrip (env : Env) (key : String) (v init : JsValue)
    (hclient : env.isServer = false) (hok : env.setItemFails = false)
    (hrt : (deserializer init (storedText v)).1 = v) :
    (readValue (setValue env key v).1 key init).1 = v := by
  have hset : (setValue env key v).1 =
      { env with storage := storageSet env.storage key (storedText v) } := by
    simp [setValue, hclient, hok]
  rw [hset]
  have hget : storageGet (storageSet env.storage key (storedText v)) key =
      some (storedText v) := by
    simp [storageGet, storageSet, List.find?]
  simp only [readValue, hclient, Bool.false_eq_true, if_false, hget]
  by_cases hraw : storedText v = ""
  · rw [hraw] at hrt
    have : deserializer init "" = (init, [.error "Error parsing JSON:"]) := rfl
    rw [this] at hrt
    simp [hraw, hrt]
  · simp [hraw, hrt]

/-- Witness for `write_then_read_roundtrip`: the repository's own
persisted shape, an object with username and id fields. -/
theorem write_then_read_roundtrip_witness :
    (readValue (setValue ⟨false, [], false⟩ "userData"
        (.obj [("username", .str "Alice"), ("id", .str "P1")])).1 "userData" .null).1 =
      .obj [("username", .str "Alice"), ("id", .str "P1")] :=
  write_then_read_roundtrip ⟨false, [], false⟩ "userData"
    (.obj [("username", .str "Alice"), ("id", .str "P1")]) .null rfl rfl rfl

/-- C7 counterexample.  The stored text `"undefined"` is malformed in the
claim's sense — JSON parsing fails on it — yet `read` returns the
`undefined` value (the deserializer's placeholder branch), not the
caller-supplied default `null`, refuting the claim for this text. -/
theorem read_undefined_text_not_default :
    jsonParse "undefined" = none ∧
    (readValue ⟨false, [("userData", "undefined")], false⟩ "userData" .null).1 = .undef ∧
    JsValue.undef ≠ JsValue.null :=
  ⟨rfl, rfl, fun h => JsValue.noConfusion h⟩

/-- C7 amended.  For every stored text other than the literal placeholder
`"undefined"` on which JSON parsing fails, `read` returns the caller's
default and never throws; the parse failure is logged whenever the text
is non-empty (the empty string short-circuits to the default before the
parser runs). -/
theorem read_malformed_returns_default (env : Env) (key : String) (init : JsValue)
    (raw : String) (hclient : env.isServer = false)
    (hstore : storageGet env.storage key = some raw)
    (hund : raw ≠ "undefined") (hbad : jsonParse raw = none) :
    (readValue env key init).1 = init ∧
    (raw ≠ "" → (readValue env key init).2 = [.error "Error parsing JSON:"]) := by
  by_cases hraw : raw = ""
  · simp [readValue, hclient, hstore, hraw]
  · simp [readValue, hclient, hstore, hraw, deserializer, hund, hbad]

/-- Witness for `read_malformed_returns_default` on a concrete malformed
text. -/
theorem read_malformed_returns_default_witness :
    (readValue ⟨false, [("userData", "nonsense")], false⟩ "userData" .null).1 = .null ∧
    ("nonsense" ≠ "" →
      (readValue ⟨false, [("userData", "nonsense")], false⟩ "userData" .null).2 =
        [.error "Error parsing JSON:"]) :=
  read_malformed_returns_default ⟨false, [("userData", "nonsense")], false⟩ "userData"
    .null "nonsense" rfl rfl (by decide) rfl

/-- C1 counterexample.  On the transition `estimatesRevealed false → true`
with an EMPTY estimate map — so the population of active (non-spectator)
participant ids with a present map entry is empty — the effect still
fires: `every` over the empty collection is vacuously true.  This refutes
the claim that the celebration never fires when the qualifying population
is empty. -/
theorem confetti_fires_on_empty_map_reveal :
    confettiFires ⟨false, [], some "P1"⟩ ⟨true, [], some "P1"⟩ = true := rfl

/-- C1 amended.  The celebration fires exactly when the effect
dependencies (reveal flag, estimate map, self id) changed and the new
state has `estimatesRevealed = true` with every entry of the map —
spectators' stray entries included — equal to the entry stored under the
self id (vacuously when the map is empty): (1) it never fires on a
re-render with unchanged dependencies, (2) it never fires when the new
state is unrevealed, (3) at a `false → true` reveal transition it fires
iff the all-entries-match-self condition holds, and (4) it CAN fire again
while `estimatesRevealed` stays true whenever the dependencies change and
the condition holds. -/
theorem confetti_trigger_behaviour :
    (∀ d : ConfettiDeps, confettiFires d d = false) ∧
    (∀ prev cur : ConfettiDeps, cur.estimatesRevealed = false →
      confettiFires prev cur = false) ∧
    (∀ prev cur : ConfettiDeps, prev.estimatesRevealed = false →
      cur.estimatesRevealed = true →
      (confettiFires prev cur = true ↔ allMatchSelf cur.estimates cur.selfId = true)) ∧
    (∀ prev cur : ConfettiDeps, prev ≠ cur → cur.estimatesRevealed = true →
      allMatchSelf cur.estimates cur.selfId = true → confettiFires prev cur = true) := by
  refine ⟨?_, ?_, ?_, ?_⟩
  · intro d
    simp [confettiFires]
  · intro prev cur h
    simp [confettiFires, h]
  · intro prev cur h1 h2
    have hne : prev ≠ cur := by
      intro he
      rw [he, h2] at h1
      cases h1
    simp [confettiFires, hne, h2]
  · intro prev cur hne h2 hall
    simp [confettiFires, hne, h2, hall]

/-- Witness for `confetti_trigger_behaviour`: the spec's own scenario,
`P1` and `P2` both holding `"5"`, reveal transition fires. -/
theorem confetti_trigger_behaviour_witness :
    confettiFires ⟨false, [("P1", "5"), ("P2", "5")], some "P1"⟩
      ⟨true, [("P1", "5"), ("P2", "5")], some "P1"⟩ = true :=
  (confetti_trigger_behaviour.2.2.1 ⟨false, [("P1", "5"), ("P2", "5")], some "P1"⟩
    ⟨true, [("P1", "5"), ("P2", "5")], some "P1"⟩ rfl rfl).mpr (by decide)

/-- C2.  Id convergence: when the persisted id is unset (falsy), the id
effect adopts the network presence id into the persisted identity,
touching nothing else and pushing nothing; when the persisted id is set
and differs from the network presence id, the persisted id is pushed to
the network presence and the persisted identity is left unchanged. -/
theorem id_convergence (ui : UserInfo) (p : Presence) :
    (jsTruthy ui.id = false →
      idStep ui p = ({ ui with id := p.id }, p, false)) ∧
    (jsTruthy ui.id = true → ui.id ≠ p.id →
      idStep ui p = (ui, { p with id := ui.id }, true)) := by
  constructor
  · intro h
    simp [idStep, idEffect, runEffect, h]
  · intro h hne
    simp [idStep, idEffect, runEffect, h, hne, applyPatch]

/-- Witness for `id_convergence`: the spec's reconnect scenario, persisted
id `"P1"` pushed over the freshly generated network id `"N2"`. -/
theorem id_convergence_witness :
    idStep ⟨some "Alice", some "P1"⟩ ⟨some "N2", some "Fox-42", false⟩ =
      (⟨some "Alice", some "P1"⟩, ⟨some "P1", some "Fox-42", false⟩, true) :=
  (id_convergence ⟨some "Alice", some "P1"⟩ ⟨some "N2", some "Fox-42", false⟩).2
    rfl (by decide)

/-- C3.  Username convergence: a set (truthy) persisted username that
differs from the network one is pushed to the presence with the persisted
identity unchanged; an unset persisted username ends the step holding the
network username, with the presence untouched and no push; and starting
from the fully empty persisted identity with network presence
`(id, username) = (some nid, nuser)`, iterated reconciliation reaches the
fixpoint where the persisted identity equals the network identity, with
no presence push ever performed (the second round repairs the first
round's id-effect overwrite of the adopted username). -/
theorem username_convergence (ui : UserInfo) (p : Presence) :
    (jsTruthy ui.username = true → ui.username ≠ p.username →
      usernameStep ui p = (ui, { p with username := ui.username }, true)) ∧
    (jsTruthy ui.username = false →
      (usernameStep ui p).1.username = p.username ∧
      (usernameStep ui p).2.1 = p ∧ (usernameStep ui p).2.2 = false) ∧
    (∀ (nid : String) (nuser : Option String) (spect : Bool), nid ≠ "" →
      reconcileSteps 2 (⟨none, none⟩, ⟨some nid, nuser, spect⟩, false) =
        (⟨nuser, some nid⟩, ⟨some nid, nuser, spect⟩, false) ∧
      reconcileRound ⟨nuser, some nid⟩ ⟨some nid, nuser, spect⟩ =
        (⟨nuser, some nid⟩, ⟨some nid, nuser, spect⟩, false)) := by
  refine ⟨?_, ?_, ?_⟩
  · intro h hne
    simp [usernameStep, usernameEffect, runEffect, h, hne, applyPatch]
  · intro h
    by_cases heq : ui.username = p.username
    · simp [usernameStep, usernameEffect, runEffect, heq]
    · simp [usernameStep, usernameEffect, runEffect, h, heq]
  · intro nid nuser spect hne
    have h2 : jsTruthy (some nid) = true := by simp [jsTruthy, hne]
    have h3 : jsTruthy none = false := rfl
    cases nuser with
    | none =>
      constructor
      · simp [reconcileSteps, reconcileRound, usernameEffect, idEffect, runEffect,
          h2, h3, hne, applyPatch]
      · simp [reconcileRound, usernameEffect, idEffect, runEffect, h2, h3, hne, applyPatch]
    | some u =>
      constructor
      · simp [reconcileSteps, reconcileRound, usernameEffect, idEffect, runEffect,
          h2, h3, hne, applyPatch]
      · simp [reconcileRound, usernameEffect, idEffect, runEffect, h2, h3, hne, applyPatch]

/-- Witness for `username_convergence`: the spec's bootstrap scenario,
empty persisted identity adopting the network `("N1", "Fox-42")` with no
push. -/
theorem username_convergence_witness :
    reconcileSteps 2 (⟨none, none⟩, ⟨some "N1", some "Fox-42", false⟩, false) =
      (⟨some "Fox-42", some "N1"⟩, ⟨some "N1", some "Fox-42", false⟩, false) :=
  ((username_convergence ⟨none, none⟩ ⟨some "N1", some "Fox-42", false⟩).2.2
    "N1" (some "Fox-42") false (by decide)).1

/-- C9.  Visibility: while `estimatesRevealed = false` every avatar —
spectator or not — renders only the hidden face, never the label; the
hidden face's sole estimate-dependent datum is the JS truthiness of the
entry (the red dot), so views over maps whose entries agree on truthiness
are indistinguishable, and in particular any two entries drawn from the
fixed legal label set (all of which are non-empty, hence truthy) yield
identical hidden views — the underlying label is never revealed; the
participant's own entry is read directly from the map, independently of
the reveal flag; and a spectator's stray entry is never rendered as a
label even when `estimatesRevealed = true`. -/
theorem estimate_visibility :
    (∀ (spect : Bool) (est : EstimateMap) (uid : String),
      avatarView false spect est uid = .hiddenFace (jsTruthy (mapGet est uid))) ∧
    (∀ (spect : Bool) (est1 est2 : EstimateMap) (uid : String),
      jsTruthy (mapGet est1 uid) = jsTruthy (mapGet est2 uid) →
      avatarView false spect est1 uid = avatarView false spect est2 uid) ∧
    (∀ (spect : Bool) (est1 est2 : EstimateMap) (uid : String),
      (∃ v1 ∈ estimationValues, mapGet est1 uid = some v1) →
      (∃ v2 ∈ estimationValues, mapGet est2 uid = some v2) →
      avatarView false spect est1 uid = avatarView false spect est2 uid) ∧
    (∀ (d : SharedData) (uid : Option String) (b : Bool),
      selfEstimate { d with estimatesRevealed := b } uid = mapGetOpt d.estimates uid) ∧
    (∀ (est : EstimateMap) (uid : String),
      avatarView true true est uid = .hiddenFace (jsTruthy (mapGet est uid))) := by
  refine ⟨?_, ?_, ?_, ?_, ?_⟩
  · intro spect est uid
    simp [avatarView]
  · intro spect est1 est2 uid h
    simp [avatarView, h]
  · intro spect est1 est2 uid h1 h2
    obtain ⟨v1, hv1mem, hv1⟩ := h1
    obtain ⟨v2, hv2mem, hv2⟩ := h2
    have hne1 : v1 ≠ "" := by
      intro he
      subst he
      revert hv1mem
      decide
    have hne2 : v2 ≠ "" := by
      intro he
      subst he
      revert hv2mem
      decide
    have ht1 : jsTruthy (mapGet est1 uid) = true := by
      rw [hv1]
      simp [jsTruthy, hne1]
    have ht2 : jsTruthy (mapGet est2 uid) = true := by
      rw [hv2]
      simp [jsTruthy, hne2]
    simp [avatarView, ht1, ht2]
  · intro d uid b
    simp [selfEstimate]
  · intro est uid
    simp [avatarView]

/-- Witness for `estimate_visibility`: with the reveal flag down, the
rendered avatar is identical whether `P2` voted `"5"` or `"8"`. -/
theorem estimate_visibility_witness :
    avatarView false false [("P2", "5")] "P2" = avatarView false false [("P2", "8")] "P2" :=
  estimate_visibility.2.2.1 false [("P2", "5")] [("P2", "8")] "P2"
    ⟨"5", by decide, rfl⟩ ⟨"8", by decide, rfl⟩

/-- Anything produced by the dedupe fold was already in the accumulator,
or is the first element of the input carrying its id, has an id distinct
from the self id, and an id absent from the accumulator. -/
theorem dedupeOthers_mem (selfId : Option String) :
    ∀ (l acc : List Presence) (p : Presence), p ∈ dedupeOthers selfId acc l →
      p ∈ acc ∨ (p.id ≠ selfId ∧ (∀ a ∈ acc, a.id ≠ p.id) ∧
        l.find? (fun o => o.id == p.id) = some p) := by
  intro l
  induction l with
  | nil =>
    intro acc p hp
    exact Or.inl hp
  | cons other rest ih =>
    intro acc p hp
    rw [dedupeOthers] at hp
    by_cases hcond : (acc.any (fun o => other.id == o.id) || other.id == selfId) = true
    · rw [if_pos hcond] at hp
      rcases ih acc p hp with h | ⟨hps, hacc, hfind⟩
      · exact Or.inl h
      · right
        refine ⟨hps, hacc, ?_⟩
        rw [Bool.or_eq_true] at hcond
        have hop : ¬ ((fun o => o.id == p.id) other = true) := by
          simp only [beq_iff_eq]
          intro hope
          rcases hcond with hany | hself
          · rcases List.any_eq_true.mp hany with ⟨a, ha, hai⟩
            have hoa : other.id = a.id := beq_iff_eq.mp hai
            exact hacc a ha (by rw [← hoa]; exact hope)
          · have hos : other.id = selfId := beq_iff_eq.mp hself
            exact hps (by rw [← hope]; exact hos)
        rw [@List.find?_cons_of_neg Presence (fun o => o.id == p.id) other rest hop]
        exact hfind
    · rw [if_neg hcond] at hp
      rw [Bool.or_eq_true, not_or] at hcond
      obtain ⟨hany, hself⟩ := hcond
      have hselfne : other.id ≠ selfId := fun h => hself (beq_iff_eq.mpr h)
      have hanyne : ∀ a ∈ acc, other.id ≠ a.id := by
        intro a ha h
        exact hany (List.any_eq_true.mpr ⟨a, ha, beq_iff_eq.mpr h⟩)
      rcases ih (acc ++ [other]) p hp with hmem | ⟨hps, hacc, hfind⟩
      · rcases List.mem_append.mp hmem with h | h
        · exact Or.inl h
        · have hpe : p = other := by simpa using h
          subst hpe
          right
          refine ⟨hselfne, ?_, ?_⟩
          · intro a ha h
            exact hanyne a ha h.symm
          · exact @List.find?_cons_of_pos Presence (fun o => o.id == p.id) p rest (by simp)
      · right
        have hoth : other.id ≠ p.id := hacc other (by simp)
        refine ⟨hps, fun a ha => hacc a (List.mem_append.mpr (Or.inl ha)), ?_⟩
        rw [@List.find?_cons_of_neg Presence (fun o => o.id == p.id) other rest
          (by simp only [beq_iff_eq]; exact hoth)]
        exact hfind

/-- The dedupe fold preserves pairwise-distinct ids of the accumulator. -/
theorem dedupeOthers_pairwise (selfId : Option String) :
    ∀ (l acc : List Presence), acc.Pairwise (fun a b => a.id ≠ b.id) →
      (dedupeOthers selfId acc l).Pairwise (fun a b => a.id ≠ b.id) := by
  intro l
  induction l with
  | nil =>
    intro acc h
    exact h
  | cons other rest ih =>
    intro acc h
    rw [dedupeOthers]
    by_cases hcond : (acc.any (fun o => other.id == o.id) || other.id == selfId) = true
    · rw [if_pos hcond]
      exact ih acc h
    · rw [if_neg hcond]
      rw [Bool.or_eq_true, not_or] at hcond
      obtain ⟨hany, _⟩ := hcond
      apply ih
      rw [List.pairwise_append]
      refine ⟨h, List.pairwise_singleton _ _, ?_⟩
      intro a ha b hb
      have hb' : b = other := by simpa using hb
      subst hb'
      intro hab
      exact hany (List.any_eq_true.mpr ⟨a, ha, beq_iff_eq.mpr hab.symm⟩)

/-- C10.  The derived other-participants list never contains the self id,
has pairwise-distinct ids, every entry carries a non-empty username and a
non-empty id, and each surviving entry is the FIRST element of the input
bearing its id. -/
theorem others_selector_invariants (selfId : Option String) (others : List Presence) :
    (∀ p ∈ othersSelector selfId others, p.id ≠ selfId) ∧
    (othersSelector selfId others).Pairwise (fun a b => a.id ≠ b.id) ∧
    (∀ p ∈ othersSelector selfId others,
      (∃ s, p.username = some s ∧ s ≠ "") ∧ (∃ s, p.id = some s ∧ s ≠ "")) ∧
    (∀ p ∈ othersSelector selfId others,
      others.find? (fun o => o.id == p.id) = some p) := by
  refine ⟨?_, ?_, ?_, ?_⟩
  · intro p hp
    rcases dedupeOthers_mem selfId others [] p (List.mem_of_mem_filter hp) with h | ⟨hps, _, _⟩
    · cases h
    · exact hps
  · exact List.Pairwise.sublist (List.filter_sublist _)
      (dedupeOthers_pairwise selfId others [] List.Pairwise.nil)
  · intro p hp
    have hkeep := List.of_mem_filter hp
    rw [Bool.and_eq_true] at hkeep
    exact ⟨(jsTruthy_iff _).mp hkeep.1, (jsTruthy_iff _).mp hkeep.2⟩
  · intro p hp
    rcases dedupeOthers_mem selfId others [] p (List.mem_of_mem_filter hp) with h | ⟨_, _, hfind⟩
    · cases h
    · exact hfind

/-- Witness for `others_selector_invariants`: with a duplicated id `"A"`
and the self id `"S"` in the input, the survivor keeps an id distinct
from the self id. -/
theorem others_selector_invariants_witness :
    (⟨some "A", some "u", false⟩ : Presence).id ≠ some "S" :=
  (others_selector_invariants (some "S")
      [⟨some "A", some "u", false⟩, ⟨some "A", some "v", false⟩,
        ⟨some "S", some "w", false⟩]).1
    ⟨some "A", some "u", false⟩ (by decide)
